import Mathlib

/-!
Verification of `pytext/models/semantic_parsers/rnng/rnng_data_structures.py`.

We give a shallow embedding of the RNNG parser data structures: `Element`,
`StackLSTM` (the augmented stack), the two composition functions, and
`ParserState`.  Torch tensors are modelled by an abstract vector type `ε` and
recurrent (LSTM) states by an abstract type `σ`; the external `torch.nn.LSTM`
cell and the projection `_lstm_output` (which reads `state[0][-1]`, the last
layer of the hidden tensor) live outside this file (torch internals), so they
are carried as function-valued fields.  Python lists are Lean lists kept
most-recent-first: the Python code appends at the tail and indexes from the
end, so `list.append` becomes `cons`, `stack[-1]` becomes the head, and
`stack.pop()` removes the head.  Operations that can raise a Python exception
return `Option`, with `none` marking the exception.
-/

/-- Model of the `Element` class: a generic wrapper around an opaque payload
`node`; `__eq__` compares payloads, which for a one-field structure is exactly
structural equality. -/
structure Element (α : Type) where
  node : α
  deriving DecidableEq, Repr

/-- One slot of the augmented stack: the Python nested pair
`(state, (embedding, element))` pushed by `StackLSTM.push`. -/
structure Frame (σ ε α : Type) where
  state : σ
  summary : ε
  elem : Element α
  deriving DecidableEq, Repr

/-- Model of the `StackLSTM` class.  The fields `lstm` and `lstm_output` embed
the external recurrent cell `self.lstm` (input and previous state to new
state) and the method `_lstm_output` (state to summary vector `state[0][-1]`);
`empty` is `self.empty` (the `empty_embedding` argument) and `stack` is
`self.stack`, most recent frame first. -/
structure StackLSTM (σ ε α : Type) where
  lstm : ε → σ → σ
  lstm_output : σ → ε
  empty : ε
  stack : List (Frame σ ε α)

/-- Model of `StackLSTM.__init__` with a non-`None` `initial_state`: the stack
holds exactly one sentinel frame
`(initial_state, (_lstm_output(initial_state), Element("Root")))`.  The
payload type is generic (`Any` in Python), so the root payload is passed in;
every Python call site uses the string payload for the root. -/
def StackLSTM.init {σ ε α : Type} (lstm : ε → σ → σ) (lstm_output : σ → ε)
    (initial_state : σ) (empty : ε) (root : α) : StackLSTM σ ε α :=
  { lstm := lstm, lstm_output := lstm_output, empty := empty,
    stack := [⟨initial_state, lstm_output initial_state, ⟨root⟩⟩] }

/-- Model of `StackLSTM.push`: reads `self.stack[-1][0]` (raising `IndexError`
on an empty raw list, hence `none`), feeds the expression and the old top
state to the cell, and appends `(new_state, (_lstm_output(new_state), elt))`. -/
def StackLSTM.push {σ ε α : Type} (s : StackLSTM σ ε α) (expression : ε)
    (element : Element α) : Option (StackLSTM σ ε α) :=
  match s.stack with
  | [] => none
  | top :: rest =>
    let new_top_state := s.lstm expression top.state
    some { s with
      stack := ⟨new_top_state, s.lstm_output new_top_state, element⟩ :: top :: rest }

/-- Model of `StackLSTM.pop`: `self.stack.pop()[1]` removes the last appended
frame — whatever it is, the sentinel included — and returns its
`(embedding, element)` pair; it raises (`none`) only when the raw list is
empty. -/
def StackLSTM.pop {σ ε α : Type} (s : StackLSTM σ ε α) :
    Option ((ε × Element α) × StackLSTM σ ε α) :=
  match s.stack with
  | [] => none
  | f :: rest => some ((f.summary, f.elem), { s with stack := rest })

/-- Model of `StackLSTM.embedding`: `if len(self.stack) < 1: return self.empty`
— the raw count is below one exactly when the raw list is empty — otherwise
`_lstm_output(self.stack[-1][0])`.  It reads the stack and returns a vector; as
a pure function it cannot mutate anything. -/
def StackLSTM.embedding {σ ε α : Type} (s : StackLSTM σ ε α) : ε :=
  match s.stack with
  | [] => s.empty
  | top :: _ => s.lstm_output top.state

/-- Model of `StackLSTM.element_from_top`: `self.stack[-(index + 1)][1][1]`,
i.e. the element of the frame at offset `index` from the top; a Python
`IndexError` (offset at or beyond the raw length) is `none`. -/
def StackLSTM.element_from_top {σ ε α : Type} (s : StackLSTM σ ε α)
    (index : Nat) : Option (Element α) :=
  (s.stack.get? index).map Frame.elem

/-- Model of `StackLSTM.__len__`: `len(self.stack) - 1`, as an integer (the
Python expression can be `-1` when the raw list is empty). -/
def StackLSTM.len {σ ε α : Type} (s : StackLSTM σ ε α) : Int :=
  (s.stack.length : Int) - 1

/-- Model of the `ParserState` class (the fields set by `__init__`; the three
stacks are built by the external parser object).  `neg_prob` is the cumulative
negative log probability, a float accumulated from score tensors, modelled as
a rational; the action indices and scores are opaque (`ι`, `ρ`). -/
structure ParserState (σ ε α ι ρ : Type) where
  buffer_stackrnn : StackLSTM σ ε α
  stack_stackrnn : StackLSTM σ ε α
  action_stackrnn : StackLSTM σ ε α
  predicted_actions_idx : List ι
  action_scores : List ρ
  num_open_NT : Nat
  is_open_NT : List Bool
  found_unsupported : Bool
  neg_prob : ℚ

/-- Model of `ParserState.finished`:
`len(self.stack_stackrnn) == 1 and len(self.buffer_stackrnn) == 0`. -/
def ParserState.finished {σ ε α ι ρ : Type} (p : ParserState σ ε α ι ρ) : Bool :=
  p.stack_stackrnn.len == 1 && p.buffer_stackrnn.len == 0

/-- Model of `ParserState.__gt__`: `self.neg_prob > other.neg_prob`. -/
def ParserState.gt {σ ε α ι ρ : Type} (a b : ParserState σ ε α ι ρ) : Bool :=
  a.neg_prob > b.neg_prob

/-- Model of `ParserState.__eq__`: `self.neg_prob == other.neg_prob`. -/
def ParserState.beq {σ ε α ι ρ : Type} (a b : ParserState σ ε α ι ρ) : Bool :=
  a.neg_prob == b.neg_prob

/-- A tiny concrete augmented stack over integer vectors used to evaluate the
model: the cell adds expression and state, the summary projection is the
identity, the sentinel state is `1` and the designated empty vector is `0`,
so the sentinel summary and the empty vector differ. -/
def sampleStack : StackLSTM Int Int String :=
  StackLSTM.init (fun e s => e + s) id 1 0 "Root"

/-- A concrete parser state (all three stacks are `sampleStack`) whose
cumulative negative log probability is the given rational. -/
def sampleParser (q : ℚ) : ParserState Int Int String Nat ℚ :=
  { buffer_stackrnn := sampleStack, stack_stackrnn := sampleStack,
    action_stackrnn := sampleStack, predicted_actions_idx := [],
    action_scores := [], num_open_NT := 0, is_open_NT := [],
    found_unsupported := false, neg_prob := q }

/-- C1, counterexample: on a freshly initialised stack the externally visible
depth is 0, yet `embedding()` returns the sentinel frame summary vector
(here `1`), not the designated empty-stack vector (here `0`): the guard
`len(self.stack) < 1` tests the raw frame count, which still counts the
sentinel. -/
theorem embedding_at_depth_zero_is_not_empty_vector :
    sampleStack.len = 0 ∧ sampleStack.embedding = 1 ∧ sampleStack.empty = 0 ∧
      sampleStack.embedding ≠ sampleStack.empty := by
  refine ⟨rfl, rfl, rfl, by decide⟩

/-- C1, amended: `embedding()` returns the summary vector of the top frame
whenever the raw frame list is nonempty — in particular at externally visible
depth 0, where the top frame is the sentinel — and returns the designated
empty-stack vector only when the raw frame list is empty (which requires the
sentinel to have been popped).  Being a pure read of the stack, the call
mutates nothing. -/
theorem embedding_returns_top_summary_or_empty {σ ε α : Type}
    (s : StackLSTM σ ε α) :
    (∀ f rest, s.stack = f :: rest → f.summary = s.lstm_output f.state →
        s.embedding = f.summary) ∧
      (s.stack = [] → s.embedding = s.empty) := by
  constructor
  · rintro f rest h hw
    simp [StackLSTM.embedding, h, hw]
  · intro h
    simp [StackLSTM.embedding, h]

/-- C1, witness: the amended statement evaluated on the concrete sample
stack, whose single (sentinel) frame has summary vector `1`. -/
theorem embedding_returns_top_summary_or_empty_witness :
    sampleStack.embedding = 1 :=
  (embedding_returns_top_summary_or_empty sampleStack).1
    ⟨1, 1, ⟨"Root"⟩⟩ [] rfl rfl

/-- C2: `finished()` returns `true` exactly when the stack depth is 1 and the
buffer depth is 0, and `false` for every other combination of depths. -/
theorem finished_iff_stack_one_buffer_zero {σ ε α ι ρ : Type}
    (p : ParserState σ ε α ι ρ) :
    p.finished = true ↔
      (p.stack_stackrnn.len = 1 ∧ p.buffer_stackrnn.len = 0) := by
  simp [ParserState.finished]

/-- C4: evaluating `pop()` at the failing input — a stack of externally
visible depth 0 (only the sentinel present) — the call does not raise: it
silently removes the sentinel root frame and returns its
(summary vector, element) pair, leaving an empty raw frame list.  There is no
assertion in `StackLSTM.pop`; only an already empty raw list raises. -/
theorem pop_at_depth_zero_silently_removes_sentinel :
    sampleStack.len = 0 ∧ (sampleStack.pop).isSome = true ∧
      Option.map (fun r => (r.1, r.2.stack)) sampleStack.pop =
        some (((1 : Int), (⟨"Root"⟩ : Element String)),
          ([] : List (Frame Int Int String))) := by
  exact ⟨rfl, rfl, rfl⟩

/-- C6: `__gt__` holds exactly when the left `neg_prob` exceeds the right one
and `__eq__` holds exactly when the two `neg_prob` fields are equal — both
right-hand sides mention `neg_prob` only, so no other field can influence
either comparison — and consequently a candidate with cumulative negative log
probability `-3/10` compares greater than one with `-7/10`, i.e. the `-7/10`
candidate sorts ahead of the `-3/10` one in ascending order. -/
theorem ranking_is_by_neg_prob_only {σ ε α ι ρ : Type}
    (a b : ParserState σ ε α ι ρ) :
    (ParserState.gt a b = true ↔ a.neg_prob > b.neg_prob) ∧
      (ParserState.beq a b = true ↔ a.neg_prob = b.neg_prob) ∧
      (a.neg_prob = -3/10 → b.neg_prob = -7/10 → ParserState.gt a b = true) := by
  refine ⟨by simp [ParserState.gt], by simp [ParserState.beq], ?_⟩
  intro ha hb
  simp only [ParserState.gt, ha, hb]
  norm_num

/-- C6, witness: two concrete candidates with cumulative negative log
probabilities `-3/10` and `-7/10`; the first compares greater, so the second
sorts ahead. -/
theorem ranking_is_by_neg_prob_only_witness :
    ParserState.gt (sampleParser (-3/10)) (sampleParser (-7/10)) = true :=
  (ranking_is_by_neg_prob_only (sampleParser (-3/10)) (sampleParser (-7/10))).2.2
    rfl rfl

/-- An operation applied to an augmented stack by the decode loop: a push of
an input vector together with an element, or a pop. -/
inductive StackOp (ε α : Type) where
  | push : ε → Element α → StackOp ε α
  | pop : StackOp ε α

/-- Number of pushes in an operation sequence. -/
def pushCount {ε α : Type} : List (StackOp ε α) → Nat
  | [] => 0
  | .push _ _ :: rest => pushCount rest + 1
  | .pop :: rest => pushCount rest

/-- Number of pops in an operation sequence. -/
def popCount {ε α : Type} : List (StackOp ε α) → Nat
  | [] => 0
  | .push _ _ :: rest => popCount rest
  | .pop :: rest => popCount rest + 1

/-- Runs an operation sequence against a `StackLSTM`, collecting the
(summary vector, element) pairs returned by the pops; `none` if any operation
raises. -/
def runOps {σ ε α : Type} :
    StackLSTM σ ε α → List (StackOp ε α) →
      Option (StackLSTM σ ε α × List (ε × Element α))
  | s, [] => some (s, [])
  | s, .push e x :: rest =>
    match s.push e x with
    | none => none
    | some s1 => runOps s1 rest
  | s, .pop :: rest =>
    match s.pop with
    | none => none
    | some (r, s1) =>
      match runOps s1 rest with
      | none => none
      | some (s2, rs) => some (s2, r :: rs)

/-- The precondition of C3: along the run, every pop happens at externally
visible depth at least 1 (and every operation succeeds). -/
def okOps {σ ε α : Type} : StackLSTM σ ε α → List (StackOp ε α) → Bool
  | _, [] => true
  | s, .push e x :: rest =>
    match s.push e x with
    | none => false
    | some s1 => okOps s1 rest
  | s, .pop :: rest =>
    (1 ≤ s.len) &&
      match s.pop with
      | none => false
      | some (_, s1) => okOps s1 rest

/-- Reference LIFO discipline on the pushed elements alone: a push stacks its
element on the pending list, a pop returns the most recently pushed element
not yet popped.  This is the specification against which the elements
returned by `runOps` are checked. -/
def lifoElems {ε α : Type} :
    List (StackOp ε α) → List (Element α) → List (Element α)
  | [], _ => []
  | .push _ x :: rest, pend => lifoElems rest (x :: pend)
  | .pop :: _, [] => []
  | .pop :: rest, y :: pend => y :: lifoElems rest pend

/-- Invariant lemma behind C3: starting from any stack whose frame list is
some frames above the sentinel frame, a run whose pops all happen at depth at
least 1 succeeds, keeps the sentinel at the bottom, changes the number of
non-sentinel frames by pushes minus pops, and pops elements in LIFO order. -/
theorem runOps_sentinel_invariant {σ ε α : Type} (sent : Frame σ ε α) :
    ∀ (ops : List (StackOp ε α)) (s : StackLSTM σ ε α)
      (fs : List (Frame σ ε α)),
      s.stack = fs ++ [sent] → okOps s ops = true →
      ∃ s2 rs, runOps s ops = some (s2, rs) ∧
        ∃ fs2, s2.stack = fs2 ++ [sent] ∧
          fs2.length + popCount ops = fs.length + pushCount ops ∧
          rs.map Prod.snd = lifoElems ops (fs.map Frame.elem) := by
  intro ops
  induction ops with
  | nil =>
    intro s fs hs _
    exact ⟨s, [], rfl, fs, hs, by simp [popCount, pushCount], rfl⟩
  | cons op rest ih =>
    intro s fs hs hok
    cases op with
    | push e x =>
      obtain ⟨top, tl, htl⟩ : ∃ top tl, fs ++ [sent] = top :: tl := by
        cases h : fs ++ [sent] with
        | nil => exact absurd h (by simp)
        | cons a b => exact ⟨a, b, rfl⟩
      have hpush : s.push e x = some { s with
          stack := ⟨s.lstm e top.state, s.lstm_output (s.lstm e top.state), x⟩
            :: top :: tl } := by
        simp [StackLSTM.push, hs, htl]
      have hok2 : okOps { s with
          stack := ⟨s.lstm e top.state, s.lstm_output (s.lstm e top.state), x⟩
            :: top :: tl } rest = true := by
        have := hok
        rw [okOps, hpush] at this
        exact this
      have hstack2 : ({ s with
          stack := ⟨s.lstm e top.state, s.lstm_output (s.lstm e top.state), x⟩
            :: top :: tl } : StackLSTM σ ε α).stack =
          (⟨s.lstm e top.state, s.lstm_output (s.lstm e top.state), x⟩ :: fs)
            ++ [sent] := by
        simp [htl.symm]
      obtain ⟨s2, rs, hrun, fs2, hsent, hcount, hlifo⟩ :=
        ih _ _ hstack2 hok2
      refine ⟨s2, rs, ?_, fs2, hsent, ?_, ?_⟩
      · rw [runOps, hpush]
        exact hrun
      · simp only [popCount, pushCount, List.length_cons] at hcount ⊢
        omega
      · simpa [lifoElems] using hlifo
    | pop =>
      have hdepth : (1 : Int) ≤ s.len := by
        rw [okOps] at hok
        exact of_decide_eq_true (Bool.and_eq_true_iff.mp hok).1
      obtain ⟨f, fs1, hfs⟩ : ∃ f fs1, fs = f :: fs1 := by
        cases fs with
        | nil =>
          exfalso
          rw [StackLSTM.len, hs] at hdepth
          simp at hdepth
        | cons a b => exact ⟨a, b, rfl⟩
      have hpop : s.pop = some ((f.summary, f.elem),
          { s with stack := fs1 ++ [sent] }) := by
        simp [StackLSTM.pop, hs, hfs]
      have hok2 : okOps { s with stack := fs1 ++ [sent] } rest = true := by
        have := (Bool.and_eq_true_iff.mp (by rw [okOps] at hok; exact hok)).2
        rw [hpop] at this
        exact this
      obtain ⟨s2, rs, hrun, fs2, hsent, hcount, hlifo⟩ :=
        ih { s with stack := fs1 ++ [sent] } fs1 rfl hok2
      refine ⟨s2, (f.summary, f.elem) :: rs, ?_, fs2, hsent, ?_, ?_⟩
      · rw [runOps, hpop]
        simp [hrun]
      · simp only [popCount, pushCount, hfs, List.length_cons] at hcount ⊢
        omega
      · simp [hfs, lifoElems, hlifo]

/-- C3: starting from a freshly initialised augmented stack, for every
sequence of pushes and pops whose pops all occur at externally visible depth
at least 1: the run raises nothing, the final `len` equals the number of
pushes minus the number of pops, the sentinel root frame is still at the
bottom and is exactly the one frame `len` does not count, each pop returned
the element of the most recently pushed not-yet-popped frame (the reference
LIFO discipline), and in general a pop removes precisely the top frame and
returns its (summary vector, element) pair. -/
theorem stackLSTM_push_pop_discipline {σ ε α : Type}
    (lstm : ε → σ → σ) (out : σ → ε) (initial_state : σ) (empty : ε)
    (root : α) (ops : List (StackOp ε α))
    (hok : okOps (StackLSTM.init lstm out initial_state empty root) ops
      = true) :
    ∃ s2 rs,
      runOps (StackLSTM.init lstm out initial_state empty root) ops
          = some (s2, rs) ∧
        s2.len = (pushCount ops : Int) - popCount ops ∧
        s2.stack.getLast? = some ⟨initial_state, out initial_state, ⟨root⟩⟩ ∧
        (s2.stack.length : Int) = s2.len + 1 ∧
        rs.map Prod.snd = lifoElems ops [] ∧
        (∀ (t : StackLSTM σ ε α) f rest, t.stack = f :: rest →
          t.pop = some ((f.summary, f.elem), { t with stack := rest })) := by
  have hinit : (StackLSTM.init lstm out initial_state empty root).stack =
      [] ++ [⟨initial_state, out initial_state, ⟨root⟩⟩] := by
    simp [StackLSTM.init]
  obtain ⟨s2, rs, hrun, fs2, hsent, hcount, hlifo⟩ :=
    runOps_sentinel_invariant _ ops _ [] hinit hok
  refine ⟨s2, rs, hrun, ?_, ?_, ?_, by simpa using hlifo, ?_⟩
  · rw [StackLSTM.len, hsent]
    simp only [List.length_nil, Nat.zero_add] at hcount
    simp only [List.length_append, List.length_singleton]
    omega
  · rw [hsent]
    simp
  · rw [StackLSTM.len, hsent]
    simp
  · intro t f rest ht
    simp [StackLSTM.pop, ht]

/-- C3, witness: the concrete run push 5 as "a", push 6 as "b", pop, executed
on the concrete sample parameters; all pops occur at depth at least 1. -/
theorem stackLSTM_push_pop_discipline_witness :
    okOps (StackLSTM.init (fun (e : Int) (s : Int) => e + s) id 1 0 "Root")
        [StackOp.push 5 ⟨"a"⟩, StackOp.push 6 ⟨"b"⟩, StackOp.pop] = true ∧
      ∃ s2 rs,
        runOps (StackLSTM.init (fun (e : Int) (s : Int) => e + s) id 1 0 "Root")
            [StackOp.push 5 ⟨"a"⟩, StackOp.push 6 ⟨"b"⟩, StackOp.pop]
            = some (s2, rs) ∧
          s2.len = (pushCount [StackOp.push (5 : Int) (⟨"a"⟩ : Element String),
              StackOp.push 6 ⟨"b"⟩, StackOp.pop] : Int) -
            popCount [StackOp.push (5 : Int) (⟨"a"⟩ : Element String),
              StackOp.push 6 ⟨"b"⟩, StackOp.pop] ∧
          s2.stack.getLast? = some ⟨1, id 1, ⟨"Root"⟩⟩ ∧
          (s2.stack.length : Int) = s2.len + 1 ∧
          rs.map Prod.snd = lifoElems [StackOp.push (5 : Int)
              (⟨"a"⟩ : Element String), StackOp.push 6 ⟨"b"⟩, StackOp.pop] [] ∧
          (∀ (t : StackLSTM Int Int String) f rest, t.stack = f :: rest →
            t.pop = some ((f.summary, f.elem), { t with stack := rest })) :=
  ⟨by decide, stackLSTM_push_pop_discipline _ _ _ _ _ _ (by decide)⟩

/-- Model of a single-layer `torch.nn.LSTM` as used by `CompositionalNN`: an
abstract recurrent transition `step` on states and the per-time-step output
projection `out` (for an LSTM the output at time `t` is the hidden part of
the state after `t` inputs). -/
structure TorchLSTM (ε σ : Type) where
  step : σ → ε → σ
  out : σ → ε

/-- The output sequence of the torch LSTM call: entry `t` is the output after
consuming inputs `0..t`.  `lstm(stacked_input, hidden)[0]` in the Python code
is exactly this list. -/
def TorchLSTM.outputs {ε σ : Type} (m : TorchLSTM ε σ) (h0 : σ) :
    List ε → List ε
  | [] => []
  | x :: xs => m.out (m.step h0 x) :: TorchLSTM.outputs m (m.step h0 x) xs

/-- Model of the `CompositionalNN` class.  `lstm_fwd` and `lstm_rev` are the
two recurrent passes; `linear_seq` embeds
`nn.Sequential(nn.Linear(2 * lstm_dim, lstm_dim), nn.Tanh())` applied to the
concatenation `torch.cat([a, b], dim=1)`, modelled as an abstract learned map
of the two halves.  `hidden_fwd` and `hidden_rev` are the initial hidden
states rebuilt on every call.  Modelled from the spec: these initial states
come from `pytext.utils.cuda_utils.xaviervar`, whose code is not part of this
file; the spec states both composition variants are deterministic given
inputs and learned parameters, so each `xaviervar` call site is modelled as a
fixed value. -/
structure CompositionalNN (ε σ : Type) where
  lstm_fwd : TorchLSTM ε σ
  lstm_rev : TorchLSTM ε σ
  hidden_fwd : σ
  hidden_rev : σ
  linear_seq : ε → ε → ε

/-- Model of `CompositionalNN.forward`.  The nonterminal is `x[-1]` (`none` on
an empty list, the Python `IndexError`); the forward pass runs on
`[nonterminal] + reversed_rest[::-1]`, the reverse pass on
`[nonterminal] + reversed_rest`; each pass is indexed `[0][0]`, i.e. the
entry of the OUTPUT SEQUENCE at time step 0, and the two are combined by
`linear_seq`. -/
def CompositionalNN.forward {ε σ : Type} (m : CompositionalNN ε σ)
    (x : List ε) : Option ε :=
  match x.getLast? with
  | none => none
  | some nonterminal_element =>
    match (m.lstm_fwd.outputs m.hidden_fwd
            (nonterminal_element :: x.dropLast.reverse)).head?,
          (m.lstm_rev.outputs m.hidden_rev
            (nonterminal_element :: x.dropLast)).head? with
    | some stacked_fwd, some stacked_rev =>
      some (m.linear_seq stacked_fwd stacked_rev)
    | _, _ => none

/-- Follows the words of the spec, for comparison with the implementation:
the behaviour claimed for `CompositionalNN.forward` — concatenate the FINAL
hidden vectors of the two passes (the last entries of the output sequences)
and project them through `linear_seq`. -/
def CompositionalNN.forward_final {ε σ : Type} (m : CompositionalNN ε σ)
    (x : List ε) : Option ε :=
  match x.getLast? with
  | none => none
  | some nonterminal_element =>
    match (m.lstm_fwd.outputs m.hidden_fwd
            (nonterminal_element :: x.dropLast.reverse)).getLast?,
          (m.lstm_rev.outputs m.hidden_rev
            (nonterminal_element :: x.dropLast)).getLast? with
    | some final_fwd, some final_rev =>
      some (m.linear_seq final_fwd final_rev)
    | _, _ => none

/-- Model of the `CompositionalSummationNN` class: `linear_seq` embeds
`nn.Sequential(nn.Linear(lstm_dim, lstm_dim), nn.Tanh())`. -/
structure CompositionalSummationNN (ε : Type) where
  linear_seq : ε → ε

/-- Model of `CompositionalSummationNN.forward`:
`torch.sum(torch.cat(x, dim=0), dim=0, keepdim=True)` is the elementwise sum
of all input vectors (`torch.cat` raises on an empty input list, hence
`none`); elementwise tensor addition is modelled by a commutative additive
monoid. -/
def CompositionalSummationNN.forward {ε : Type} [AddCommMonoid ε]
    (m : CompositionalSummationNN ε) (x : List ε) : Option ε :=
  match x with
  | [] => none
  | y :: ys => some (m.linear_seq (y :: ys).sum)

/-- A concrete bidirectional composition model over integer vectors whose
recurrent transition doubles the state and adds the input, with identity
output projection, zero initial hidden states, and an injective combiner. -/
def sampleNN : CompositionalNN Int Int :=
  { lstm_fwd := ⟨fun h x => 2 * h + x, id⟩,
    lstm_rev := ⟨fun h x => 2 * h + x, id⟩,
    hidden_fwd := 0, hidden_rev := 0,
    linear_seq := fun a b => a + 100 * b }

/-- A concrete summation composition model over integer vectors. -/
def sampleSum : CompositionalSummationNN Int := ⟨fun a => a + 1⟩

/-- C7: evaluating the bidirectional variant at the failing input `[5, 1]`
(one child `5`, nonterminal `1`) on the concrete model: the code combines the
time-step-0 outputs (hidden state after reading only the nonterminal, giving
`101`), not the final hidden vectors of the two passes (which would give
`707`, the behaviour stated by the claim and by the docstring of `forward`
itself): the indexing `[0][0]` selects the first entry of the output
sequence, not the last. -/
theorem compositionalNN_combines_first_step_not_final :
    CompositionalNN.forward sampleNN [5, 1] = some 101 ∧
      CompositionalNN.forward_final sampleNN [5, 1] = some 707 ∧
      CompositionalNN.forward sampleNN [5, 1] ≠
        CompositionalNN.forward_final sampleNN [5, 1] := by
  refine ⟨by decide, by decide, by decide⟩

/-- C8: both composition variants are deterministic — with identical input
vector lists and identical parameters (the same model value, including the
spec-modelled deterministic `xaviervar` initial hidden states), two calls
return identical outputs, both being pure functions of model and input. -/
theorem composition_variants_deterministic {ε σ : Type} [AddCommMonoid ε]
    (m : CompositionalNN ε σ) (msum : CompositionalSummationNN ε)
    (x : List ε) :
    CompositionalNN.forward m x = CompositionalNN.forward m x ∧
      CompositionalSummationNN.forward msum x =
        CompositionalSummationNN.forward msum x :=
  ⟨rfl, rfl⟩

/-- Helper: the summation variant on a nonempty list applies `linear_seq` to
the sum of all entries. -/
theorem summation_forward_cons {ε : Type} [AddCommMonoid ε]
    (m : CompositionalSummationNN ε) (y : ε) (ys : List ε) :
    CompositionalSummationNN.forward m (y :: ys) =
      some (m.linear_seq (y :: ys).sum) := rfl

/-- Helper: on any list with last entry `nt`, the implemented bidirectional
variant returns `linear_seq` of the two time-step-0 outputs, which depend
only on `nt` and the initial hidden states — the other entries are ignored
entirely. -/
theorem compositionalNN_forward_concat {ε σ : Type} (m : CompositionalNN ε σ)
    (l : List ε) (nt : ε) :
    CompositionalNN.forward m (l ++ [nt]) =
      some (m.linear_seq (m.lstm_fwd.out (m.lstm_fwd.step m.hidden_fwd nt))
        (m.lstm_rev.out (m.lstm_rev.step m.hidden_rev nt))) := by
  simp [CompositionalNN.forward, TorchLSTM.outputs]

/-- C9: the summation variant is invariant under every permutation of the
non-nonterminal entries (the sum of the entries is permutation invariant);
however, contrary to the claim, so is the implemented bidirectional variant —
by `compositionalNN_forward_concat` its output reads only the time-step-0
outputs, which depend on nothing but the last (nonterminal) entry and the
initial hidden states, so NO input list and permutation of its
non-nonterminal entries can change its output. -/
theorem summation_perm_invariant_and_biLSTM_ignores_children {ε σ : Type}
    [AddCommMonoid ε] (msum : CompositionalSummationNN ε)
    (m : CompositionalNN ε σ) (front front2 : List ε) (nt : ε)
    (hperm : front.Perm front2) :
    CompositionalSummationNN.forward msum (front ++ [nt]) =
        CompositionalSummationNN.forward msum (front2 ++ [nt]) ∧
      CompositionalNN.forward m (front ++ [nt]) =
        CompositionalNN.forward m (front2 ++ [nt]) := by
  constructor
  · have hsum : (front ++ [nt]).sum = (front2 ++ [nt]).sum :=
      (hperm.append_right [nt]).sum_eq
    cases hf : front ++ [nt] with
    | nil => simp at hf
    | cons y ys =>
      cases hf2 : front2 ++ [nt] with
      | nil => simp at hf2
      | cons z zs =>
        rw [hf, hf2] at hsum
        rw [summation_forward_cons, summation_forward_cons, hsum]
  · rw [compositionalNN_forward_concat, compositionalNN_forward_concat]

/-- C9, witness: concrete children `[1, 2]` permuted to `[2, 1]` under
nonterminal `9`: both variants return unchanged outputs. -/
theorem summation_perm_invariant_and_biLSTM_ignores_children_witness :
    CompositionalSummationNN.forward sampleSum ([1, 2] ++ [9]) =
        CompositionalSummationNN.forward sampleSum ([2, 1] ++ [9]) ∧
      CompositionalNN.forward sampleNN ([1, 2] ++ [9]) =
        CompositionalNN.forward sampleNN ([2, 1] ++ [9]) :=
  summation_perm_invariant_and_biLSTM_ignores_children sampleSum sampleNN
    [1, 2] [2, 1] 9 (by decide)

/-- A heap of Python list objects: `cells` maps an address (its index) to the
current contents of that list object.  `StackLSTM.copy` rebuilds the object
with `other.stack = list(self.stack)` — a NEW list object with the same frame
contents — and `ParserState.copy` calls `list.copy()` on each list field; the
copy claims are about this object identity, so the mutable lists are modelled
explicitly here. -/
structure World (β : Type) where
  cells : List (List β)

/-- Dereference an address (a missing address dereferences to the empty
list; every address in actual use is allocated). -/
def World.get {β : Type} (w : World β) (a : Nat) : List β :=
  (w.cells[a]?).getD []

/-- Overwrite the list object at an address (an in-place Python list
mutation). -/
def World.set {β : Type} (w : World β) (a : Nat) (xs : List β) : World β :=
  ⟨w.cells.set a xs⟩

/-- Create a new list object, as `list(xs)` or `xs.copy()` does, returning
the new world and the fresh address. -/
def World.alloc {β : Type} (w : World β) (xs : List β) : World β × Nat :=
  (⟨w.cells ++ [xs]⟩, w.cells.length)

/-- An address that refers to an allocated list object. -/
abbrev World.valid {β : Type} (w : World β) (a : Nat) : Prop :=
  a < w.cells.length

/-- Python `list.append` at an address. -/
def World.push_back {β : Type} (w : World β) (a : Nat) (b : β) : World β :=
  w.set a (w.get a ++ [b])

/-- Writing one address never changes what another address dereferences to. -/
theorem World.get_set_ne {β : Type} (w : World β) (a b : Nat) (xs : List β)
    (h : a ≠ b) : (w.set a xs).get b = w.get b := by
  simp [World.get, World.set, List.getElem?_set_ne h]

/-- A fresh allocation dereferences to the allocated contents. -/
theorem World.get_alloc_self {β : Type} (w : World β) (xs : List β) :
    (w.alloc xs).1.get (w.alloc xs).2 = xs := by
  simp [World.get, World.alloc, List.getElem?_append_right]

/-- Allocation leaves every previously allocated address unchanged. -/
theorem World.get_alloc_lt {β : Type} (w : World β) (xs : List β) (a : Nat)
    (h : a < w.cells.length) : (w.alloc xs).1.get a = w.get a := by
  simp only [World.get, World.alloc]
  rw [List.getElem?_append]
  simp [h]

/-- The `StackLSTM` object in the heap model: the immutable fields are as in
`StackLSTM`, and `sid` is the address of its `self.stack` list object. -/
structure StackLSTMRef (σ ε α : Type) where
  lstm : ε → σ → σ
  lstm_output : σ → ε
  empty : ε
  sid : Nat

/-- Heap version of `StackLSTM.push`: mutates the frame list object in
place. -/
def StackLSTMRef.pushH {σ ε α : Type} (w : World (Frame σ ε α))
    (s : StackLSTMRef σ ε α) (expression : ε) (element : Element α) :
    Option (World (Frame σ ε α)) :=
  match w.get s.sid with
  | [] => none
  | top :: rest =>
    let new_top_state := s.lstm expression top.state
    some (w.set s.sid
      (⟨new_top_state, s.lstm_output new_top_state, element⟩ :: top :: rest))

/-- Heap version of `StackLSTM.pop`. -/
def StackLSTMRef.popH {σ ε α : Type} (w : World (Frame σ ε α))
    (s : StackLSTMRef σ ε α) : Option ((ε × Element α) × World (Frame σ ε α)) :=
  match w.get s.sid with
  | [] => none
  | f :: rest => some ((f.summary, f.elem), w.set s.sid rest)

/-- Heap version of `StackLSTM.__len__`. -/
def StackLSTMRef.lenH {σ ε α : Type} (w : World (Frame σ ε α))
    (s : StackLSTMRef σ ε α) : Int :=
  ((w.get s.sid).length : Int) - 1

/-- Heap version of `StackLSTM.element_from_top`. -/
def StackLSTMRef.element_from_topH {σ ε α : Type} (w : World (Frame σ ε α))
    (s : StackLSTMRef σ ε α) (index : Nat) : Option (Element α) :=
  ((w.get s.sid).get? index).map Frame.elem

/-- Heap version of `StackLSTM.copy`:
`other = StackLSTM(self.lstm, None, self.empty)` followed by
`other.stack = list(self.stack)` — the same immutable fields, and a freshly
allocated list object holding the same frames. -/
def StackLSTMRef.copyH {σ ε α : Type} (w : World (Frame σ ε α))
    (s : StackLSTMRef σ ε α) : World (Frame σ ε α) × StackLSTMRef σ ε α :=
  ((w.alloc (w.get s.sid)).1, { s with sid := (w.alloc (w.get s.sid)).2 })

/-- The mutable list objects owned by `ParserState` values, one typed heap per
payload kind: the frame lists of the three stacks, the predicted action
indices, the action scores, and the open-nonterminal flags. -/
structure PWorld (σ ε α ι ρ : Type) where
  frames : World (Frame σ ε α)
  act_idx : World ι
  act_scores : World ρ
  open_nt : World Bool

/-- The `ParserState` object in the heap model: three stack objects plus the
addresses of its four mutable list fields; `num_open_NT`, `found_unsupported`
and `neg_prob` are immutable values copied by assignment. -/
structure ParserStateRef (σ ε α ι ρ : Type) where
  buffer_stackrnn : StackLSTMRef σ ε α
  stack_stackrnn : StackLSTMRef σ ε α
  action_stackrnn : StackLSTMRef σ ε α
  predicted_actions_idx : Nat
  action_scores : Nat
  num_open_NT : Nat
  is_open_NT : Nat
  found_unsupported : Bool
  neg_prob : ℚ

/-- Heap version of `ParserState.copy`: copies the three stacks through
`StackLSTM.copy`, rebuilds `predicted_actions_idx`, `action_scores` and
`is_open_NT` with `list.copy()` (fresh allocations with equal contents), and
copies the scalar fields by value. -/
def ParserStateRef.copyH {σ ε α ι ρ : Type} (w : PWorld σ ε α ι ρ)
    (p : ParserStateRef σ ε α ι ρ) :
    PWorld σ ε α ι ρ × ParserStateRef σ ε α ι ρ :=
  let rb := StackLSTMRef.copyH w.frames p.buffer_stackrnn
  let rs := StackLSTMRef.copyH rb.1 p.stack_stackrnn
  let ra := StackLSTMRef.copyH rs.1 p.action_stackrnn
  let ri := w.act_idx.alloc (w.act_idx.get p.predicted_actions_idx)
  let rc := w.act_scores.alloc (w.act_scores.get p.action_scores)
  let ro := w.open_nt.alloc (w.open_nt.get p.is_open_NT)
  (⟨ra.1, ri.1, rc.1, ro.1⟩,
   { buffer_stackrnn := rb.2, stack_stackrnn := rs.2, action_stackrnn := ra.2,
     predicted_actions_idx := ri.2, action_scores := rc.2,
     num_open_NT := p.num_open_NT, is_open_NT := ro.2,
     found_unsupported := p.found_unsupported, neg_prob := p.neg_prob })

/-- The decode loop appending an action index:
`state.predicted_actions_idx.append(i)`. -/
def PWorld.append_act_idx {σ ε α ι ρ : Type} (w : PWorld σ ε α ι ρ) (a : Nat)
    (i : ι) : PWorld σ ε α ι ρ :=
  { w with act_idx := w.act_idx.push_back a i }

/-- Helper: the observable state of a stack object (its depth and the element
at any offset from the top) is untouched by a write to a different address. -/
theorem stack_obs_set_other {σ ε α : Type} (w : World (Frame σ ε α)) (a : Nat)
    (xs : List (Frame σ ε α)) (s : StackLSTMRef σ ε α) (h : a ≠ s.sid) :
    StackLSTMRef.lenH (w.set a xs) s = StackLSTMRef.lenH w s ∧
      ∀ i, StackLSTMRef.element_from_topH (w.set a xs) s i =
        StackLSTMRef.element_from_topH w s i := by
  refine ⟨?_, fun i => ?_⟩
  · simp [StackLSTMRef.lenH, World.get_set_ne _ _ _ _ h]
  · simp [StackLSTMRef.element_from_topH, World.get_set_ne _ _ _ _ h]

/-- Helper: a successful heap push only writes the stack object of the pushed
stack. -/
theorem pushH_writes_own_address {σ ε α : Type} (w : World (Frame σ ε α))
    (s : StackLSTMRef σ ε α) (e : ε) (x : Element α)
    (w2 : World (Frame σ ε α)) (h : StackLSTMRef.pushH w s e x = some w2) :
    ∃ xs, w2 = w.set s.sid xs := by
  unfold StackLSTMRef.pushH at h
  cases hget : w.get s.sid with
  | nil => rw [hget] at h; simp at h
  | cons top rest =>
    rw [hget] at h
    simp only [Option.some.injEq] at h
    exact ⟨_, h.symm⟩

/-- Helper: a successful heap pop only writes the stack object of the popped
stack. -/
theorem popH_writes_own_address {σ ε α : Type} (w : World (Frame σ ε α))
    (s : StackLSTMRef σ ε α) (r : ε × Element α) (w2 : World (Frame σ ε α))
    (h : StackLSTMRef.popH w s = some (r, w2)) :
    ∃ xs, w2 = w.set s.sid xs := by
  unfold StackLSTMRef.popH at h
  cases hget : w.get s.sid with
  | nil => rw [hget] at h; simp at h
  | cons f rest =>
    rw [hget] at h
    simp only [Option.some.injEq, Prod.mk.injEq] at h
    exact ⟨_, h.2.symm⟩

/-- Helper: allocating a new list object leaves the observable state of every
already-allocated stack object unchanged. -/
theorem stack_obs_alloc_lt {σ ε α : Type} (w : World (Frame σ ε α))
    (xs : List (Frame σ ε α)) (s : StackLSTMRef σ ε α)
    (h : s.sid < w.cells.length) :
    StackLSTMRef.lenH (w.alloc xs).1 s = StackLSTMRef.lenH w s ∧
      ∀ i, StackLSTMRef.element_from_topH (w.alloc xs).1 s i =
        StackLSTMRef.element_from_topH w s i := by
  refine ⟨?_, fun i => ?_⟩ <;>
    simp [StackLSTMRef.lenH, StackLSTMRef.element_from_topH,
      World.get_alloc_lt _ _ _ h]

/-- Helper: projecting the action-index heap out of an append. -/
theorem append_act_idx_get {σ ε α ι ρ : Type} (w : PWorld σ ε α ι ρ) (a : Nat)
    (i : ι) : (w.append_act_idx a i).act_idx = w.act_idx.push_back a i := rfl

/-- C5: copies are independent of their originals.  For a stack object with an
allocated address: a push or pop applied to the stack returned by `copy()`
leaves the original stack's depth and top element unchanged, and a push or
pop applied to the original leaves the copy's depth and top element
unchanged; for a parser candidate, appending an action index to the copy's
`predicted_actions_idx` list leaves the contents (hence also the length) of
the original's `predicted_actions_idx` list unchanged. -/
theorem copy_branches_independently {σ ε α ι ρ : Type}
    (w : World (Frame σ ε α)) (s : StackLSTMRef σ ε α) (hs : w.valid s.sid)
    (e : ε) (x : Element α) (pw : PWorld σ ε α ι ρ)
    (p : ParserStateRef σ ε α ι ρ)
    (hp : pw.act_idx.valid p.predicted_actions_idx) (i : ι) :
    (∀ w2, StackLSTMRef.pushH (StackLSTMRef.copyH w s).1
        (StackLSTMRef.copyH w s).2 e x = some w2 →
      StackLSTMRef.lenH w2 s = StackLSTMRef.lenH w s ∧
        StackLSTMRef.element_from_topH w2 s 0 =
          StackLSTMRef.element_from_topH w s 0) ∧
    (∀ r w2, StackLSTMRef.popH (StackLSTMRef.copyH w s).1
        (StackLSTMRef.copyH w s).2 = some (r, w2) →
      StackLSTMRef.lenH w2 s = StackLSTMRef.lenH w s ∧
        StackLSTMRef.element_from_topH w2 s 0 =
          StackLSTMRef.element_from_topH w s 0) ∧
    (∀ w2, StackLSTMRef.pushH (StackLSTMRef.copyH w s).1 s e x = some w2 →
      StackLSTMRef.lenH w2 (StackLSTMRef.copyH w s).2 =
          StackLSTMRef.lenH (StackLSTMRef.copyH w s).1
            (StackLSTMRef.copyH w s).2 ∧
        StackLSTMRef.element_from_topH w2 (StackLSTMRef.copyH w s).2 0 =
          StackLSTMRef.element_from_topH (StackLSTMRef.copyH w s).1
            (StackLSTMRef.copyH w s).2 0) ∧
    (∀ r w2, StackLSTMRef.popH (StackLSTMRef.copyH w s).1 s = some (r, w2) →
      StackLSTMRef.lenH w2 (StackLSTMRef.copyH w s).2 =
          StackLSTMRef.lenH (StackLSTMRef.copyH w s).1
            (StackLSTMRef.copyH w s).2 ∧
        StackLSTMRef.element_from_topH w2 (StackLSTMRef.copyH w s).2 0 =
          StackLSTMRef.element_from_topH (StackLSTMRef.copyH w s).1
            (StackLSTMRef.copyH w s).2 0) ∧
    ((ParserStateRef.copyH pw p).1.append_act_idx
        (ParserStateRef.copyH pw p).2.predicted_actions_idx i).act_idx.get
        p.predicted_actions_idx =
      pw.act_idx.get p.predicted_actions_idx := by
  have hs2 : s.sid < w.cells.length := hs
  have hcsid : (StackLSTMRef.copyH w s).2.sid = w.cells.length := rfl
  have hobs0 : StackLSTMRef.lenH (StackLSTMRef.copyH w s).1 s =
        StackLSTMRef.lenH w s ∧
      ∀ j, StackLSTMRef.element_from_topH (StackLSTMRef.copyH w s).1 s j =
        StackLSTMRef.element_from_topH w s j :=
    stack_obs_alloc_lt w _ s hs2
  refine ⟨?_, ?_, ?_, ?_, ?_⟩
  · intro w2 h
    obtain ⟨xs, rfl⟩ := pushH_writes_own_address _ _ _ _ _ h
    have hne : (StackLSTMRef.copyH w s).2.sid ≠ s.sid := by
      rw [hcsid]; omega
    obtain ⟨h1, h2⟩ :=
      stack_obs_set_other (StackLSTMRef.copyH w s).1 _ xs s hne
    exact ⟨h1.trans hobs0.1, (h2 0).trans (hobs0.2 0)⟩
  · intro r w2 h
    obtain ⟨xs, rfl⟩ := popH_writes_own_address _ _ _ _ h
    have hne : (StackLSTMRef.copyH w s).2.sid ≠ s.sid := by
      rw [hcsid]; omega
    obtain ⟨h1, h2⟩ :=
      stack_obs_set_other (StackLSTMRef.copyH w s).1 _ xs s hne
    exact ⟨h1.trans hobs0.1, (h2 0).trans (hobs0.2 0)⟩
  · intro w2 h
    obtain ⟨xs, rfl⟩ := pushH_writes_own_address _ _ _ _ _ h
    have hne : s.sid ≠ (StackLSTMRef.copyH w s).2.sid := by
      rw [hcsid]; omega
    obtain ⟨h1, h2⟩ :=
      stack_obs_set_other (StackLSTMRef.copyH w s).1 _ xs
        (StackLSTMRef.copyH w s).2 hne
    exact ⟨h1, h2 0⟩
  · intro r w2 h
    obtain ⟨xs, rfl⟩ := popH_writes_own_address _ _ _ _ h
    have hne : s.sid ≠ (StackLSTMRef.copyH w s).2.sid := by
      rw [hcsid]; omega
    obtain ⟨h1, h2⟩ :=
      stack_obs_set_other (StackLSTMRef.copyH w s).1 _ xs
        (StackLSTMRef.copyH w s).2 hne
    exact ⟨h1, h2 0⟩
  · have hp2 : p.predicted_actions_idx < pw.act_idx.cells.length := hp
    have hpred : (ParserStateRef.copyH pw p).2.predicted_actions_idx =
        (pw.act_idx.alloc (pw.act_idx.get p.predicted_actions_idx)).2 := rfl
    have hact : (ParserStateRef.copyH pw p).1.act_idx =
        (pw.act_idx.alloc (pw.act_idx.get p.predicted_actions_idx)).1 := rfl
    have hne : (pw.act_idx.alloc
        (pw.act_idx.get p.predicted_actions_idx)).2 ≠
        p.predicted_actions_idx := by
      show pw.act_idx.cells.length ≠ p.predicted_actions_idx
      omega
    rw [append_act_idx_get, hpred, hact, World.push_back,
      World.get_set_ne _ _ _ _ hne, World.get_alloc_lt _ _ _ hp2]

/-- A concrete one-object frame heap holding the sentinel frame list. -/
def sampleWorld : World (Frame Int Int String) := ⟨[[⟨1, 1, ⟨"Root"⟩⟩]]⟩

/-- A concrete stack object whose frame list lives at address 0 of
`sampleWorld`. -/
def sampleRef : StackLSTMRef Int Int String :=
  { lstm := fun e s => e + s, lstm_output := id, empty := 0, sid := 0 }

/-- A concrete parser heap: three sentinel frame lists, one predicted-action
list `[3, 1]`, one score list and one flag list. -/
def samplePWorld : PWorld Int Int String Nat ℚ :=
  { frames := ⟨[[⟨1, 1, ⟨"Root"⟩⟩], [⟨1, 1, ⟨"Root"⟩⟩], [⟨1, 1, ⟨"Root"⟩⟩]]⟩,
    act_idx := ⟨[[3, 1]]⟩, act_scores := ⟨[[(1 : ℚ)]]⟩,
    open_nt := ⟨[[true]]⟩ }

/-- A concrete parser candidate object over `samplePWorld`. -/
def sampleParserRef : ParserStateRef Int Int String Nat ℚ :=
  { buffer_stackrnn :=
      { lstm := fun e s => e + s, lstm_output := id, empty := 0, sid := 0 },
    stack_stackrnn :=
      { lstm := fun e s => e + s, lstm_output := id, empty := 0, sid := 1 },
    action_stackrnn :=
      { lstm := fun e s => e + s, lstm_output := id, empty := 0, sid := 2 },
    predicted_actions_idx := 0, action_scores := 0, num_open_NT := 2,
    is_open_NT := 0, found_unsupported := false, neg_prob := -3/10 }

/-- C5, witness: concrete heaps in which both validity preconditions hold, and
the parser half of the conclusion at these inputs — appending action index 7
to the copy leaves the original's `[3, 1]` untouched. -/
theorem copy_branches_independently_witness :
    sampleWorld.valid sampleRef.sid ∧
      samplePWorld.act_idx.valid sampleParserRef.predicted_actions_idx ∧
      ((ParserStateRef.copyH samplePWorld sampleParserRef).1.append_act_idx
          (ParserStateRef.copyH samplePWorld
            sampleParserRef).2.predicted_actions_idx 7).act_idx.get
          sampleParserRef.predicted_actions_idx =
        samplePWorld.act_idx.get sampleParserRef.predicted_actions_idx :=
  ⟨by decide, by decide,
    (copy_branches_independently sampleWorld sampleRef (by decide) 5 ⟨"a"⟩
      samplePWorld sampleParserRef (by decide) 7).2.2.2.2⟩

/-- C10: `copy()` preserves observable state at the moment of copying.  For
every stack object: the copy has the same depth, the same element at every
offset from the top (the sentinel at the deepest valid offset included; the
dereferenced frame lists are equal, so every offset agrees), and shares the
same recurrent cell, summary projection and empty-stack vector.  For every
parser candidate: the copy's `predicted_actions_idx`, `action_scores` and
`is_open_NT` lists have the same contents, and `num_open_NT`, `neg_prob` and
`found_unsupported` are equal. -/
theorem copy_preserves_observable_state {σ ε α ι ρ : Type}
    (w : World (Frame σ ε α)) (s : StackLSTMRef σ ε α)
    (pw : PWorld σ ε α ι ρ) (p : ParserStateRef σ ε α ι ρ) :
    (StackLSTMRef.lenH (StackLSTMRef.copyH w s).1 (StackLSTMRef.copyH w s).2 =
        StackLSTMRef.lenH w s ∧
      (∀ i, StackLSTMRef.element_from_topH (StackLSTMRef.copyH w s).1
          (StackLSTMRef.copyH w s).2 i =
        StackLSTMRef.element_from_topH w s i) ∧
      (StackLSTMRef.copyH w s).2.lstm = s.lstm ∧
      (StackLSTMRef.copyH w s).2.lstm_output = s.lstm_output ∧
      (StackLSTMRef.copyH w s).2.empty = s.empty) ∧
    ((ParserStateRef.copyH pw p).1.act_idx.get
        (ParserStateRef.copyH pw p).2.predicted_actions_idx =
        pw.act_idx.get p.predicted_actions_idx ∧
      (ParserStateRef.copyH pw p).1.act_scores.get
        (ParserStateRef.copyH pw p).2.action_scores =
        pw.act_scores.get p.action_scores ∧
      (ParserStateRef.copyH pw p).1.open_nt.get
        (ParserStateRef.copyH pw p).2.is_open_NT =
        pw.open_nt.get p.is_open_NT ∧
      (ParserStateRef.copyH pw p).2.num_open_NT = p.num_open_NT ∧
      (ParserStateRef.copyH pw p).2.neg_prob = p.neg_prob ∧
      (ParserStateRef.copyH pw p).2.found_unsupported = p.found_unsupported) := by
  have hget : (StackLSTMRef.copyH w s).1.get (StackLSTMRef.copyH w s).2.sid =
      w.get s.sid := World.get_alloc_self w (w.get s.sid)
  refine ⟨⟨?_, fun i => ?_, rfl, rfl, rfl⟩, ?_, ?_, ?_, rfl, rfl, rfl⟩
  · simp [StackLSTMRef.lenH, hget]
  · simp [StackLSTMRef.element_from_topH, hget]
  · exact World.get_alloc_self pw.act_idx _
  · exact World.get_alloc_self pw.act_scores _
  · exact World.get_alloc_self pw.open_nt _
